import Mathlib

/-!
Verification of the PlaidML device-execution runtime core against its design
specification.  The Lean definitions below are shallow embeddings of:

* `src/pmlc/conversion/comp_to_llvm/comp_to_ocl.cc` — the driver-A (OpenCL)
  lowering pass;
* `src/pmlc/conversion/comp_to_llvm/comp_to_vulkan.cc` — the driver-B (Vulkan)
  lowering pass;
* `src/pmlc/rt/level_zero/level_zero_invocation.cc` — the accelerator-driver
  invocation runtime;
* `src/plaidml/bridge/openvino/ops/reduce_mean.cpp` — the "reducemean"
  front-end registration.

Modules are modelled by their symbol tables (lists of symbol names), SSA
values by a small expression language, the rewriter's emitted runtime calls
by explicit call lists, and the runtime's driver interactions by traces of
driver calls.
-/

/-! ## Runtime function names (comp_to_ocl.cc lines 24-36, comp_to_vulkan.cc lines 32-44) -/

def kOclCreate : String := "oclCreate"

def kOclDestroy : String := "oclDestroy"

def kOclAlloc : String := "oclAlloc"

def kOclDealloc : String := "oclDealloc"

def kOclRead : String := "oclRead"

def kOclWrite : String := "oclWrite"

def kOclCreateKernel : String := "oclCreateKernel"

def kOclSetKernelArg : String := "oclSetKernelArg"

def kOclAddKernelDep : String := "oclAddKernelDep"

def kOclScheduleFunc : String := "oclScheduleFunc"

def kOclBarrier : String := "oclBarrier"

def kOclSubmit : String := "oclSubmit"

def kOclWait : String := "oclWait"

def kVkInit : String := "vkInit"

def kVkDeinit : String := "vkDeinit"

def kVkRun : String := "vkRun"

def kVkCreateLaunchKernelAction : String := "vkCreateLaunchKernelAction"

def kVkSetLaunchKernelAction : String := "vkSetLaunchKernelAction"

def kVkCreateMemoryTransferAction : String := "vkCreateMemoryTransferAction"

def kVkWait : String := "vkWait"

def kVkScheduleFunc : String := "vkScheduleFunc"

def kVkBindBuffer : String := "vkBindBuffer"

/-! ## Declaration insertion (comp_to_ocl.cc lines 203-298, comp_to_vulkan.cc lines 173-234)

A module's symbol table is modelled as the list of its symbol names, in
definition order; `builder.create<LLVM::LLVMFuncOp>` before the module
terminator appends a symbol, and `module.lookupSymbol(name)` is list
membership.  The function types of the declarations play no role in the
claims about duplication and are not modelled. -/

/-- One guarded insertion step of `addOclFunctionDeclarations`: the builder
creates the declaration only when `module.lookupSymbol(name)` is null. -/
def insertIfAbsent (syms : List String) (name : String) : List String :=
  if name ∈ syms then syms else syms ++ [name]

/-- Names declared by `addOclFunctionDeclarations`, in source order
(comp_to_ocl.cc lines 213-297). -/
def oclDeclNames : List String :=
  [kOclCreate, kOclDestroy, kOclAlloc, kOclDealloc, kOclRead, kOclWrite,
   kOclCreateKernel, kOclSetKernelArg, kOclAddKernelDep, kOclScheduleFunc,
   kOclBarrier, kOclSubmit, kOclWait]

/-- Embedding of `addOclFunctionDeclarations` (comp_to_ocl.cc lines 203-298):
each declaration is created only if no symbol of that name already exists. -/
def addOclFunctionDeclarations (syms : List String) : List String :=
  oclDeclNames.foldl insertIfAbsent syms

/-- Names declared by `addVkFunctionDeclarations`, in source order
(comp_to_vulkan.cc lines 184-233). -/
def vkDeclNames : List String :=
  [kVkInit, kVkCreateLaunchKernelAction, kVkSetLaunchKernelAction, kVkRun,
   kVkScheduleFunc, kVkDeinit, kVkWait, kVkCreateMemoryTransferAction,
   kVkBindBuffer]

/-- Embedding of `addVkFunctionDeclarations` (comp_to_vulkan.cc lines
173-234): every `builder.create<LLVM::LLVMFuncOp>` call is unconditional —
there is no `module.lookupSymbol` guard anywhere in the function. -/
def addVkFunctionDeclarations (syms : List String) : List String :=
  syms ++ vkDeclNames

lemma mem_insertIfAbsent_of_mem {m : String} {s : List String} (n : String)
    (h : m ∈ s) : m ∈ insertIfAbsent s n := by
  unfold insertIfAbsent
  split
  · exact h
  · exact List.mem_append_left _ h

lemma mem_insertIfAbsent_self (s : List String) (n : String) :
    n ∈ insertIfAbsent s n := by
  unfold insertIfAbsent
  split
  · assumption
  · exact List.mem_append_right _ (List.mem_singleton.mpr rfl)

lemma insertIfAbsent_of_mem {n : String} {s : List String} (h : n ∈ s) :
    insertIfAbsent s n = s := by
  unfold insertIfAbsent
  simp [h]

lemma count_insertIfAbsent_of_mem {n : String} {s : List String} (m : String)
    (h : n ∈ s) : (insertIfAbsent s m).count n = s.count n := by
  unfold insertIfAbsent
  split
  · rfl
  · rename_i hm
    rw [List.count_append]
    have hne : m ≠ n := fun he => hm (he ▸ h)
    simp [List.count_singleton', hne]

lemma mem_foldl_insertIfAbsent_of_mem {m : String} {s : List String}
    (l : List String) (h : m ∈ s) : m ∈ l.foldl insertIfAbsent s := by
  induction l generalizing s with
  | nil => exact h
  | cons a t ih => exact ih (mem_insertIfAbsent_of_mem a h)

lemma mem_foldl_insertIfAbsent_self {n : String} {l : List String}
    (s : List String) (h : n ∈ l) : n ∈ l.foldl insertIfAbsent s := by
  induction l generalizing s with
  | nil => cases h
  | cons a t ih =>
    cases h with
    | head =>
      exact mem_foldl_insertIfAbsent_of_mem t (mem_insertIfAbsent_self s n)
    | tail _ ht => exact ih _ ht

lemma foldl_insertIfAbsent_of_forall_mem {l s : List String}
    (h : ∀ n ∈ l, n ∈ s) : l.foldl insertIfAbsent s = s := by
  induction l with
  | nil => rfl
  | cons a t ih =>
    have ha : a ∈ s := h a (List.mem_cons_self a t)
    simp only [List.foldl_cons, insertIfAbsent_of_mem ha]
    exact ih fun n hn => h n (List.mem_cons_of_mem a hn)

lemma count_foldl_insertIfAbsent_of_mem {n : String} {s : List String}
    (l : List String) (h : n ∈ s) :
    (l.foldl insertIfAbsent s).count n = s.count n := by
  induction l generalizing s with
  | nil => rfl
  | cons a t ih =>
    simp only [List.foldl_cons]
    rw [ih (mem_insertIfAbsent_of_mem a h), count_insertIfAbsent_of_mem a h]

/-- C1, counterexample.  The claim asserts that in both the driver-A (OpenCL)
and the driver-B (Vulkan) lowering passes each native entry-point declaration
is inserted only if no symbol of that name already exists.  This is false for
the driver-B pass: `addVkFunctionDeclarations` creates every declaration
unconditionally, so running it twice on an (initially empty) module leaves
two symbols named `vkInit` — a duplicate function declaration. -/
theorem C1_counterexample :
    (addVkFunctionDeclarations (addVkFunctionDeclarations [])).count kVkInit
      = 2 := by
  decide

/-- C1, amended.  Declaration insertion is idempotent for the driver-A
(OpenCL) pass only: `addOclFunctionDeclarations` inserts each declaration
only if no symbol of that name exists, so it never duplicates symbols and
applying it twice equals applying it once.  The driver-B (Vulkan) pass
`addVkFunctionDeclarations` inserts unconditionally: any of its declaration
names already present in the module is duplicated. -/
theorem C1_amended_idempotent_ocl_only (s : List String) (n : String) :
    addOclFunctionDeclarations (addOclFunctionDeclarations s)
        = addOclFunctionDeclarations s
    ∧ (n ∈ s → (addOclFunctionDeclarations s).count n = s.count n)
    ∧ (n ∈ s → n ∈ vkDeclNames →
        2 ≤ (addVkFunctionDeclarations s).count n) := by
  refine ⟨?_, ?_, ?_⟩
  · unfold addOclFunctionDeclarations
    exact foldl_insertIfAbsent_of_forall_mem
      fun m hm => mem_foldl_insertIfAbsent_self s hm
  · intro h
    exact count_foldl_insertIfAbsent_of_mem oclDeclNames h
  · intro hs hv
    unfold addVkFunctionDeclarations
    rw [List.count_append]
    have h1 : 0 < s.count n := List.count_pos_iff.mpr hs
    have h2 : 0 < vkDeclNames.count n := List.count_pos_iff.mpr hv
    omega

/-- C1, witness for the amended theorem at a concrete module that already
contains the `vkInit` symbol. -/
theorem C1_amended_witness :
    addOclFunctionDeclarations (addOclFunctionDeclarations [kVkInit])
        = addOclFunctionDeclarations [kVkInit]
    ∧ ((kVkInit : String) ∈ [kVkInit] →
        (addOclFunctionDeclarations [kVkInit]).count kVkInit
          = [kVkInit].count kVkInit)
    ∧ ((kVkInit : String) ∈ [kVkInit] → kVkInit ∈ vkDeclNames →
        2 ≤ (addVkFunctionDeclarations [kVkInit]).count kVkInit) :=
  C1_amended_idempotent_ocl_only [kVkInit] kVkInit

/-! ## SSA values emitted by the lowerings

The rewriter-produced SSA values that feed the runtime calls are modelled by
a small expression language: `var` is a pre-existing SSA value (an operand of
the op under rewrite), `constI32` / `constIdx` model `LLVM::ConstantOp` /
`createIndexConstant`, `mulI` models `mlir::MulIOp`, `indexCast` models the
`indexToInt` helper, and `memPtr` models the `hostMemrefToMem` /
`deviceMemrefToMem` pointer extraction from a memref descriptor. -/

inductive Expr where
  | var : String → Expr
  | constI32 : Nat → Expr
  | constIdx : Nat → Expr
  | mulI : Expr → Expr → Expr
  | indexCast : Expr → Expr
  | memPtr : Expr → Expr
deriving DecidableEq, Repr

/-- Numeric value an emitted SSA expression denotes at run time, given the
values of the pre-existing SSA operands.  `indexCast` and `memPtr` are
value-preserving conversions (index-to-integer cast, pointer extraction). -/
def Expr.evalN (ρ : String → Nat) : Expr → Nat
  | var s => ρ s
  | constI32 n => n
  | constIdx n => n
  | mulI a b => a.evalN ρ * b.evalN ρ
  | indexCast a => a.evalN ρ
  | memPtr a => a.evalN ρ

/-- Three-dimensional size operand group of a `gpu.launch_func`
(`getGridSizeOperandValues` / `getBlockSizeOperandValues`). -/
structure Dim3 where
  x : Expr
  y : Expr
  z : Expr

/-! ## Driver-A (OpenCL) ScheduleFunc lowering (comp_to_ocl.cc lines 479-497) -/

/-- Operand list of the final `oclScheduleFunc` call emitted by the OpenCL
`ConvertScheduleFunc::matchAndRewrite` (comp_to_ocl.cc lines 479-497): three
`MulIOp`s compute the global work size from grid and block size, and the call
receives `(env, kernel, globalX, globalY, globalZ, blockX, blockY, blockZ)`
with each index value converted to an integer by `indexToInt`. -/
def oclScheduleFuncCallOperands (env kernel : Expr) (gridSize blockSize : Dim3) :
    List Expr :=
  let globalX := Expr.mulI gridSize.x blockSize.x
  let globalY := Expr.mulI gridSize.y blockSize.y
  let globalZ := Expr.mulI gridSize.z blockSize.z
  [env, kernel,
   Expr.indexCast globalX, Expr.indexCast globalY, Expr.indexCast globalZ,
   Expr.indexCast blockSize.x, Expr.indexCast blockSize.y,
   Expr.indexCast blockSize.z]

/-- C3.  For every ScheduleFunc op lowered by the driver-A (OpenCL) pass, the
global work size passed to `oclScheduleFunc` equals the element-wise product
of grid size and block size, and the block size is passed through unchanged
(value-preserving index cast only) as the last three arguments: under every
valuation of the incoming SSA operands the eight call operands evaluate to
`(env, kernel, gx*bx, gy*by, gz*bz, bx, by, bz)`. -/
theorem C3_global_size_is_grid_times_block (ρ : String → Nat)
    (env kernel : Expr) (gridSize blockSize : Dim3) :
    (oclScheduleFuncCallOperands env kernel gridSize blockSize).map
        (Expr.evalN ρ)
      = [env.evalN ρ, kernel.evalN ρ,
         gridSize.x.evalN ρ * blockSize.x.evalN ρ,
         gridSize.y.evalN ρ * blockSize.y.evalN ρ,
         gridSize.z.evalN ρ * blockSize.z.evalN ρ,
         blockSize.x.evalN ρ, blockSize.y.evalN ρ, blockSize.z.evalN ρ] := by
  simp [oclScheduleFuncCallOperands, Expr.evalN]

/-! ## Variadic call lowering (comp_to_ocl.cc lines 300-365, comp_to_vulkan.cc
lines 236-271) -/

/-- Operand list built by the OpenCL `ConvertToFuncCallPattern` in the
`varArg` case (comp_to_ocl.cc lines 319-332): the first `nonVarArgs` operands
are copied positionally, then an `LLVM::ConstantOp` holding
`operands.size() - nonVarArgs` as an i32 is appended, then the remaining
operands follow. -/
def oclVarArgCallOperands (nonVarArgs : Nat) (operands : List Expr) :
    List Expr :=
  operands.take nonVarArgs
    ++ [Expr.constI32 (operands.length - nonVarArgs)]
    ++ operands.drop nonVarArgs

/-- Operand list built by the Vulkan `ConvertToFuncCallPattern` in the
`varArg` case (comp_to_vulkan.cc lines 256-269); the construction is
identical to the OpenCL one. -/
def vkVarArgCallOperands (nonVarArgs : Nat) (operands : List Expr) :
    List Expr :=
  operands.take nonVarArgs
    ++ [Expr.constI32 (operands.length - nonVarArgs)]
    ++ operands.drop nonVarArgs

/-- Operand list built by the OpenCL `ConvertScheduleReadWrite` pattern
(comp_to_ocl.cc lines 336-365): the three fixed operands (host memref, device
memref, execution environment) are kept positionally with the two memrefs
replaced by their extracted memory pointers, then `createIndexConstant` of
the dependency count is appended, then the dependency events follow. -/
def oclScheduleReadWriteOperands (operands : List Expr) : List Expr :=
  match operands with
  | host :: dev :: env :: deps =>
      [Expr.memPtr host, Expr.memPtr dev, env, Expr.constIdx deps.length]
        ++ deps
  | short => short

/-- C8.  In each variadic lowering (driver-A generic pattern, driver-A
read/write pattern, driver-B generic pattern) the fixed leading operands are
passed positionally and the count of the remaining dependency-event operands
is materialized as an explicit integer constant placed immediately before the
variadic tail: the emitted list has one extra element, agrees with the
original operands on the first `nonVarArgs` positions, carries the count
constant at position `nonVarArgs`, and shifts the tail by one. -/
theorem C8_variadic_count_before_tail (n : Nat) (ops : List Expr)
    (hn : n ≤ ops.length) (hst dev env : Expr) (deps : List Expr) :
    ((oclVarArgCallOperands n ops).length = ops.length + 1
      ∧ (∀ i, i < n → (oclVarArgCallOperands n ops)[i]? = ops[i]?)
      ∧ (oclVarArgCallOperands n ops)[n]?
          = some (Expr.constI32 (ops.length - n))
      ∧ ∀ i, n ≤ i → i < ops.length →
          (oclVarArgCallOperands n ops)[i + 1]? = ops[i]?)
    ∧ ((vkVarArgCallOperands n ops).length = ops.length + 1
      ∧ (∀ i, i < n → (vkVarArgCallOperands n ops)[i]? = ops[i]?)
      ∧ (vkVarArgCallOperands n ops)[n]?
          = some (Expr.constI32 (ops.length - n))
      ∧ ∀ i, n ≤ i → i < ops.length →
          (vkVarArgCallOperands n ops)[i + 1]? = ops[i]?)
    ∧ ((oclScheduleReadWriteOperands (hst :: dev :: env :: deps)).length
          = deps.length + 4
      ∧ (oclScheduleReadWriteOperands (hst :: dev :: env :: deps)).take 3
          = [Expr.memPtr hst, Expr.memPtr dev, env]
      ∧ (oclScheduleReadWriteOperands (hst :: dev :: env :: deps))[3]?
          = some (Expr.constIdx deps.length)
      ∧ (oclScheduleReadWriteOperands (hst :: dev :: env :: deps)).drop 4
          = deps) := by
  have hgen : ∀ r : List Expr,
      r = ops.take n ++ [Expr.constI32 (ops.length - n)] ++ ops.drop n →
      r.length = ops.length + 1
        ∧ (∀ i, i < n → r[i]? = ops[i]?)
        ∧ r[n]? = some (Expr.constI32 (ops.length - n))
        ∧ ∀ i, n ≤ i → i < ops.length → r[i + 1]? = ops[i]? := by
    intro r hr
    have hlen : (ops.take n).length = n := by
      simp [List.length_take, Nat.min_eq_left hn]
    subst hr
    refine ⟨?_, ?_, ?_, ?_⟩
    · simp only [List.length_append, hlen, List.length_singleton,
        List.length_drop]
      omega
    · intro i hi
      rw [List.append_assoc, List.getElem?_append_left (by omega),
        List.getElem?_take, if_pos hi]
    · rw [List.append_assoc, List.getElem?_append_right (by omega),
        hlen, Nat.sub_self]
      simp
    · intro i hni hil
      rw [List.append_assoc, List.getElem?_append_right (by omega), hlen,
        List.getElem?_append_right (by simp only [List.length_singleton]; omega),
        List.length_singleton, List.getElem?_drop]
      congr 1
      omega
  refine ⟨hgen _ rfl, hgen _ rfl, ?_, ?_, ?_, ?_⟩ <;>
    simp [oclScheduleReadWriteOperands]

/-- Concrete operand list (an `oclBarrier` op: environment plus two
dependency events) used by the C8 witness. -/
def wBarrierOps : List Expr := [Expr.var ("env"), Expr.var ("e1"), Expr.var ("e2")]

/-- Concrete host-memref operand used by the C8 witness. -/
def wHost : Expr := Expr.var ("host")

/-- Concrete device-memref operand used by the C8 witness. -/
def wDev : Expr := Expr.var ("dev")

/-- Concrete execution-environment operand used by the C8 witness. -/
def wEnv : Expr := Expr.var ("env")

/-- Concrete dependency-event operands used by the C8 witness. -/
def wDeps : List Expr := [Expr.var ("e1"), Expr.var ("e2")]

/-- C8, witness at `nonVarArgs = 1` (the `oclBarrier` configuration) with a
three-operand barrier op and a read op with two dependency events. -/
theorem C8_variadic_count_witness :
    ((oclVarArgCallOperands 1 wBarrierOps).length = wBarrierOps.length + 1
      ∧ (∀ i, i < 1 → (oclVarArgCallOperands 1 wBarrierOps)[i]? = wBarrierOps[i]?)
      ∧ (oclVarArgCallOperands 1 wBarrierOps)[1]?
          = some (Expr.constI32 (wBarrierOps.length - 1))
      ∧ ∀ i, 1 ≤ i → i < wBarrierOps.length →
          (oclVarArgCallOperands 1 wBarrierOps)[i + 1]? = wBarrierOps[i]?)
    ∧ ((vkVarArgCallOperands 1 wBarrierOps).length = wBarrierOps.length + 1
      ∧ (∀ i, i < 1 → (vkVarArgCallOperands 1 wBarrierOps)[i]? = wBarrierOps[i]?)
      ∧ (vkVarArgCallOperands 1 wBarrierOps)[1]?
          = some (Expr.constI32 (wBarrierOps.length - 1))
      ∧ ∀ i, 1 ≤ i → i < wBarrierOps.length →
          (vkVarArgCallOperands 1 wBarrierOps)[i + 1]? = wBarrierOps[i]?)
    ∧ ((oclScheduleReadWriteOperands (wHost :: wDev :: wEnv :: wDeps)).length
          = wDeps.length + 4
      ∧ (oclScheduleReadWriteOperands (wHost :: wDev :: wEnv :: wDeps)).take 3
          = [Expr.memPtr wHost, Expr.memPtr wDev, wEnv]
      ∧ (oclScheduleReadWriteOperands (wHost :: wDev :: wEnv :: wDeps))[3]?
          = some (Expr.constIdx wDeps.length)
      ∧ (oclScheduleReadWriteOperands (wHost :: wDev :: wEnv :: wDeps)).drop 4
          = wDeps) :=
  C8_variadic_count_before_tail 1 wBarrierOps (by decide) wHost wDev wEnv wDeps

/-! ## Driver-B (Vulkan) ScheduleFunc lowering (comp_to_vulkan.cc lines 48-58,
122-146, 273-436)

The pattern-wide mutable state (`*pScheduleFuncIndex`, `*pBufferMap`) is
modelled by `VkPassState`; the runtime calls the rewriter emits are collected
in source order in a `List VkCall`.  Grid-size operands are modelled by what
`getDefiningOp()->getAttrOfType<IntegerAttr>("value")` yields: `some v` when
the operand is produced by a constant carrying integer attribute `v`, `none`
otherwise. -/

/-- One kernel operand of the `gpu.launch_func` inside the ScheduleFunc op:
the identity of its remapped buffer SSA value, the byte size computed from
its memref shape, and whether its type is a `MemRefType` at all
(comp_to_vulkan.cc lines 323-328, 348-358). -/
structure VkBuffer where
  value : Nat
  bytes : Nat
  isMemRef : Bool
deriving DecidableEq

/-- Grid-size operand triple of the launch op, as seen through
`getAttrOfType<IntegerAttr>("value")` on each operand's defining op
(comp_to_vulkan.cc lines 309-312). -/
structure VkGrid where
  x : Option Int
  y : Option Int
  z : Option Int
deriving DecidableEq

/-- Abstract ScheduleFunc op fed to the Vulkan pattern: kernel-binary name,
kernel entry name, grid sizes, kernel operand buffers, and the resolved
`subgroupSize` tag (default 1, comp_to_vulkan.cc lines 380-382). -/
structure VkScheduleFuncOp where
  binaryName : String
  kernelName : String
  grid : VkGrid
  buffers : List VkBuffer
  subgroupSize : Int
deriving DecidableEq

/-- Runtime calls emitted by the Vulkan ScheduleFunc lowering, in the order
the rewriter creates them. -/
inductive VkCall where
  | bindBuffer (descriptorSet binding bytes buffer : Nat)
  | createLaunchKernelAction (binary kernel : String) (gx gy gz : Int)
  | setLaunchKernelAction (subgroupSize : Int)
  | createMemoryTransferAction (srcIndex srcBinding dstIndex dstBinding : Nat)
  | scheduleFunc
  | run
deriving DecidableEq

/-- Pass-wide mutable state of the Vulkan `ConvertScheduleFunc` pattern:
`*pScheduleFuncIndex` and `*pBufferMap` (comp_to_vulkan.cc lines 131-134,
142-145).  The buffer map associates a buffer value with the
`(step index, binding index)` pair that last touched it. -/
structure VkPassState where
  scheduleFuncIndex : Nat
  bufferMap : List (Nat × Nat × Nat)
deriving DecidableEq

/-- Result of `ConvertScheduleFunc::matchAndRewrite`: a successful rewrite
with its emitted calls and updated pass state, a reported failed match
(`mlir::failure()`), or a crash.  `crash` models the undefined behaviour on a
non-constant grid-size operand: the code dereferences
`getDefiningOp()` (null for a block argument) and feeds the possibly-null
`IntegerAttr` straight into `LLVM::ConstantOp` with no check
(comp_to_vulkan.cc lines 309-315), so no `mlir::failure()` is ever returned
on that path. -/
inductive VkMatchResult where
  | success (calls : List VkCall) (st : VkPassState)
  | matchFailure
  | crash
deriving DecidableEq

/-- Lookup in the buffer map (the inner `for (auto pair : bufferMap) if
(pair.first == bufferOperands[i])` scan; a `DenseMap` holds at most one entry
per key). -/
def lookupBuf : List (Nat × Nat × Nat) → Nat → Option (Nat × Nat)
  | [], _ => none
  | e :: rest, b => if e.1 = b then some e.2 else lookupBuf rest b

/-- `bufferMap[bufferOperands[i]] = second` — `DenseMap::operator[]` replaces
the entry if the key is present and appends it otherwise. -/
def insertBuf : List (Nat × Nat × Nat) → Nat → Nat × Nat → List (Nat × Nat × Nat)
  | [], b, v => [(b, v)]
  | e :: rest, b, v =>
      if e.1 = b then (b, v) :: rest else e :: insertBuf rest b v

/-- Embedding of the memory-transfer loop (comp_to_vulkan.cc lines 397-419):
for each buffer operand in turn, scan the buffer map and emit one
`vkCreateMemoryTransferAction` per matching entry, then overwrite that
buffer's map entry with the current `(step index, binding index)` — the
overwrite happens inside the per-buffer loop, before the next buffer is
scanned. -/
def vkProcessBuffers (step : Nat) :
    Nat → List (Nat × Nat × Nat) → List Nat →
      List VkCall × List (Nat × Nat × Nat)
  | _, m, [] => ([], m)
  | i, m, b :: rest =>
    let ts : List VkCall :=
      match lookupBuf m b with
      | some pv => [VkCall.createMemoryTransferAction pv.1 pv.2 step i]
      | none => []
    let r := vkProcessBuffers step (i + 1) (insertBuf m b (step, i)) rest
    (ts ++ r.1, r.2)

/-- Buffer-binding loop (comp_to_vulkan.cc lines 342-372): each buffer is
bound to descriptor set 0 at a binding index equal to its argument
position. -/
def vkBindCalls : Nat → List VkBuffer → List VkCall
  | _, [] => []
  | i, b :: rest => VkCall.bindBuffer 0 i b.bytes b.value :: vkBindCalls (i + 1) rest

/-- Lookup of a serialized kernel binary in the `BinaryModulesMap`
(`modulesMap.count(binaryName)` / `modulesMap.at(binaryName)`), yielding its
kernel entry-name table. -/
def lookupBinary : List (String × List String) → String → Option (List String)
  | [], _ => none
  | e :: rest, b => if e.1 = b then some e.2 else lookupBinary rest b

/-- Modulus of the `uint32_t` arithmetic used for `scheduleFuncIndex` and
`scheduleFuncNum`. -/
def kUInt32Mod : Nat := 4294967296

/-- The guard `scheduleFuncIndex == scheduleFuncNum - 1`
(comp_to_vulkan.cc line 427), with the `uint32_t` subtraction and comparison
made explicit: `scheduleFuncNum - 1` wraps modulo `2^32`. -/
def vkRunCondition (scheduleFuncNum scheduleFuncIndex : Nat) : Bool :=
  decide (scheduleFuncIndex % kUInt32Mod
    = (scheduleFuncNum + (kUInt32Mod - 1)) % kUInt32Mod)

/-- Embedding of the Vulkan `ConvertScheduleFunc::matchAndRewrite`
(comp_to_vulkan.cc lines 273-436).  In source order: missing binary-module
entry or missing kernel entry name report a failed match (lines 288-293);
the grid-size constants are then read with no constancy check (lines
309-315, modelled as `crash` when any operand is non-constant); a kernel
operand whose type is not a memref reports a failed match (lines 348-352);
otherwise the pattern emits the bind-buffer calls, the
create-launch-kernel-action call, the set-launch-kernel-action call with the
subgroup size, the memory-transfer calls, the replacement `vkScheduleFunc`
call, and — exactly when `scheduleFuncIndex == scheduleFuncNum - 1` — the
`vkRun` call, finally incrementing the step index. -/
def vkMatchAndRewrite (mm : List (String × List String))
    (scheduleFuncNum : Nat) (st : VkPassState) (op : VkScheduleFuncOp) :
    VkMatchResult :=
  match lookupBinary mm op.binaryName with
  | none => VkMatchResult.matchFailure
  | some kernelsNameMap =>
    if op.kernelName ∈ kernelsNameMap then
      match op.grid.x, op.grid.y, op.grid.z with
      | some gx, some gy, some gz =>
        if op.buffers.all (fun b => b.isMemRef) then
          let values := op.buffers.map (fun b => b.value)
          let pb := vkProcessBuffers st.scheduleFuncIndex 0 st.bufferMap values
          let calls :=
            vkBindCalls 0 op.buffers
              ++ [VkCall.createLaunchKernelAction op.binaryName op.kernelName
                    gx gy gz]
              ++ [VkCall.setLaunchKernelAction op.subgroupSize]
              ++ pb.1
              ++ [VkCall.scheduleFunc]
              ++ (if vkRunCondition scheduleFuncNum st.scheduleFuncIndex
                  then [VkCall.run] else [])
          VkMatchResult.success calls
            ⟨st.scheduleFuncIndex + 1, pb.2⟩
        else VkMatchResult.matchFailure
      | _, _, _ => VkMatchResult.crash
    else VkMatchResult.matchFailure

/-- Kinds of operations in a module, as far as the pre-pass counting walk is
concerned. -/
inductive ModuleOpKind where
  | scheduleFunc
  | other
deriving DecidableEq

/-- Pre-pass count of kernel-launch ops:
`module.walk([&](comp::ScheduleFunc op) { scheduleFuncNum++; })`
(comp_to_vulkan.cc lines 57-58). -/
def countScheduleFuncOps (ops : List ModuleOpKind) : Nat :=
  ops.countP (fun k => decide (k = ModuleOpKind.scheduleFunc))

/-- Test whether an emitted call is a `vkCreateMemoryTransferAction` call. -/
def VkCall.isMemoryTransfer : VkCall → Bool
  | VkCall.createMemoryTransferAction _ _ _ _ => true
  | _ => false

/-- Specification-side description of the transfer emission, following the
spec's words: before emitting the current action, for every input buffer
already present in the map a memory-transfer action is emitted wiring
(producer step, producer binding) to (current step, current binding) — every
lookup consults the buffer map as it stood when the lowering of this op
began, and only afterwards are the op's own entries recorded.  Compared with
`vkProcessBuffers` for the refinement proof of the amended C5. -/
def vkSpecTransfers (step : Nat) (m : List (Nat × Nat × Nat)) :
    Nat → List Nat → List VkCall
  | _, [] => []
  | i, b :: rest =>
    (match lookupBuf m b with
     | some pv => [VkCall.createMemoryTransferAction pv.1 pv.2 step i]
     | none => []) ++ vkSpecTransfers step m (i + 1) rest

lemma lookupBuf_insertBuf_self (m : List (Nat × Nat × Nat)) (b : Nat)
    (v : Nat × Nat) : lookupBuf (insertBuf m b v) b = some v := by
  induction m with
  | nil => simp [insertBuf, lookupBuf]
  | cons e rest ih =>
    by_cases h : e.1 = b
    · simp [insertBuf, h, lookupBuf]
    · simp [insertBuf, h, lookupBuf, ih]

lemma lookupBuf_insertBuf_ne {k b : Nat} (m : List (Nat × Nat × Nat))
    (v : Nat × Nat) (h : k ≠ b) :
    lookupBuf (insertBuf m b v) k = lookupBuf m k := by
  induction m with
  | nil => simp [insertBuf, lookupBuf, Ne.symm h]
  | cons e rest ih =>
    simp only [insertBuf]
    by_cases he : e.1 = b
    · rw [if_pos he]
      have h1 : ¬(b = k) := Ne.symm h
      have h2 : ¬(e.1 = k) := by rw [he]; exact h1
      simp [lookupBuf, h1, h2]
    · rw [if_neg he]
      simp only [lookupBuf, ih]

lemma vkSpecTransfers_insertBuf {b : Nat} {bufs : List Nat}
    (step : Nat) (m : List (Nat × Nat × Nat)) (v : Nat × Nat)
    (h : b ∉ bufs) : ∀ i,
    vkSpecTransfers step (insertBuf m b v) i bufs
      = vkSpecTransfers step m i bufs := by
  induction bufs with
  | nil => intro i; rfl
  | cons b' rest ih =>
    intro i
    have hne : b' ≠ b := fun he => h (he ▸ List.mem_cons_self b' rest)
    have hrest : b ∉ rest := fun hr => h (List.mem_cons_of_mem b' hr)
    simp only [vkSpecTransfers, lookupBuf_insertBuf_ne m v hne, ih hrest]

lemma vkProcessBuffers_fst_eq_spec {bufs : List Nat} (step : Nat)
    (h : bufs.Nodup) : ∀ i m,
    (vkProcessBuffers step i m bufs).1 = vkSpecTransfers step m i bufs := by
  induction bufs with
  | nil => intro i m; rfl
  | cons b rest ih =>
    intro i m
    rcases List.nodup_cons.mp h with ⟨hb, hrest⟩
    simp only [vkProcessBuffers, vkSpecTransfers, ih hrest,
      vkSpecTransfers_insertBuf step m (step, i) hb]

lemma vkProcessBuffers_snd_lookup_not_mem {b : Nat} {bufs : List Nat}
    (step : Nat) (h : b ∉ bufs) : ∀ i m,
    lookupBuf (vkProcessBuffers step i m bufs).2 b = lookupBuf m b := by
  induction bufs with
  | nil => intro i m; rfl
  | cons b' rest ih =>
    intro i m
    have hne : b ≠ b' := fun he => h (he ▸ List.mem_cons_self b' rest)
    have hrest : b ∉ rest := fun hr => h (List.mem_cons_of_mem b' hr)
    simp only [vkProcessBuffers, ih hrest,
      lookupBuf_insertBuf_ne m (step, i) hne]

lemma vkProcessBuffers_snd_lookup {bufs : List Nat} (step : Nat)
    (h : bufs.Nodup) : ∀ i m j (hj : j < bufs.length),
    lookupBuf (vkProcessBuffers step i m bufs).2 (bufs.get ⟨j, hj⟩)
      = some (step, i + j) := by
  induction bufs with
  | nil => intro i m j hj; cases hj
  | cons b rest ih =>
    intro i m j hj
    rcases List.nodup_cons.mp h with ⟨hb, hrest⟩
    cases j with
    | zero =>
      simp only [List.get, vkProcessBuffers, Nat.add_zero]
      rw [vkProcessBuffers_snd_lookup_not_mem step hb,
        lookupBuf_insertBuf_self]
    | succ j' =>
      simp only [List.get, vkProcessBuffers]
      rw [ih hrest (i + 1) _ j' (Nat.lt_of_succ_lt_succ hj)]
      congr 2
      omega

lemma run_not_mem_vkBindCalls : ∀ (i : Nat) (bufs : List VkBuffer),
    VkCall.run ∉ vkBindCalls i bufs := by
  intro i bufs
  induction bufs generalizing i with
  | nil => simp [vkBindCalls]
  | cons b rest ih =>
    simp only [vkBindCalls, List.mem_cons]
    rintro (h | h)
    · cases h
    · exact ih (i + 1) h

lemma run_not_mem_vkProcessBuffers (step : Nat) : ∀ (bufs : List Nat)
    (i : Nat) (m : List (Nat × Nat × Nat)),
    VkCall.run ∉ (vkProcessBuffers step i m bufs).1 := by
  intro bufs
  induction bufs with
  | nil => intro i m; simp [vkProcessBuffers]
  | cons b rest ih =>
    intro i m
    simp only [vkProcessBuffers, List.mem_append]
    rintro (h | h)
    · revert h
      cases lookupBuf m b <;> simp
    · exact ih (i + 1) _ h

lemma transfer_filter_vkBindCalls : ∀ (i : Nat) (bufs : List VkBuffer),
    (vkBindCalls i bufs).filter VkCall.isMemoryTransfer = [] := by
  intro i bufs
  induction bufs generalizing i with
  | nil => rfl
  | cons b rest ih => simp [vkBindCalls, List.filter, VkCall.isMemoryTransfer, ih]

lemma transfer_filter_vkProcessBuffers (step : Nat) : ∀ (bufs : List Nat)
    (i : Nat) (m : List (Nat × Nat × Nat)),
    ((vkProcessBuffers step i m bufs).1).filter VkCall.isMemoryTransfer
      = (vkProcessBuffers step i m bufs).1 := by
  intro bufs
  induction bufs with
  | nil => intro i m; rfl
  | cons b rest ih =>
    intro i m
    simp only [vkProcessBuffers, List.filter_append, ih]
    congr 1
    cases lookupBuf m b <;> simp [VkCall.isMemoryTransfer]

lemma vkMatchAndRewrite_success_inv {mm : List (String × List String)}
    {num : Nat} {st : VkPassState} {op : VkScheduleFuncOp}
    {calls : List VkCall} {st' : VkPassState}
    (hs : vkMatchAndRewrite mm num st op = VkMatchResult.success calls st') :
    ∃ gx gy gz, op.grid.x = some gx ∧ op.grid.y = some gy
      ∧ op.grid.z = some gz
      ∧ calls = vkBindCalls 0 op.buffers
          ++ [VkCall.createLaunchKernelAction op.binaryName op.kernelName
                gx gy gz]
          ++ [VkCall.setLaunchKernelAction op.subgroupSize]
          ++ (vkProcessBuffers st.scheduleFuncIndex 0 st.bufferMap
                (op.buffers.map (fun b => b.value))).1
          ++ [VkCall.scheduleFunc]
          ++ (if vkRunCondition num st.scheduleFuncIndex
              then [VkCall.run] else [])
      ∧ st' = ⟨st.scheduleFuncIndex + 1,
          (vkProcessBuffers st.scheduleFuncIndex 0 st.bufferMap
            (op.buffers.map (fun b => b.value))).2⟩ := by
  rcases op with ⟨bn, kn, ⟨ogx, ogy, ogz⟩, bufs, sg⟩
  unfold vkMatchAndRewrite at hs
  rcases hlb : lookupBinary mm bn with _ | names
  · rw [hlb] at hs
    cases hs
  · rw [hlb] at hs
    dsimp only at hs
    by_cases hk : kn ∈ names
    · rw [if_pos hk] at hs
      rcases ogx with _ | gx
      · cases hs
      · rcases ogy with _ | gy
        · cases hs
        · rcases ogz with _ | gz
          · cases hs
          · dsimp only at hs
            by_cases hmr : bufs.all (fun b => b.isMemRef)
            · rw [if_pos hmr] at hs
              injection hs with h1 h2
              exact ⟨gx, gy, gz, rfl, rfl, rfl, h1.symm, h2.symm⟩
            · rw [if_neg hmr] at hs
              cases hs
    · rw [if_neg hk] at hs
      cases hs

lemma countScheduleFuncOps_pos {m : List ModuleOpKind}
    (h : ModuleOpKind.scheduleFunc ∈ m) : 0 < countScheduleFuncOps m := by
  unfold countScheduleFuncOps
  exact List.countP_pos_iff.mpr ⟨ModuleOpKind.scheduleFunc, h, by decide⟩

lemma vkRunCondition_iff {num idx : Nat} (h1 : 0 < num)
    (h2 : num ≤ kUInt32Mod) (h3 : idx < kUInt32Mod) :
    vkRunCondition num idx = true ↔ idx = num - 1 := by
  unfold kUInt32Mod at h2 h3
  unfold vkRunCondition kUInt32Mod
  simp only [decide_eq_true_eq]
  omega

/-- Concrete modules map used by the C2 evaluation. -/
def wC2mm : List (String × List String) := [(("bin"), [("k")])]

/-- Concrete ScheduleFunc op whose grid-size x operand is not produced by a
constant (no integer "value" attribute), used by the C2 evaluation. -/
def wC2op : VkScheduleFuncOp :=
  ⟨("bin"), ("k"), ⟨none, some 1, some 1⟩, [], 1⟩

/-- C2.  The claim (with the spec's error-handling section) states that a
non-constant grid-size operand makes the Vulkan ScheduleFunc lowering report
a failed match.  The code contains no such check: after the binary-module and
kernel-name lookups succeed it unconditionally dereferences each grid-size
operand's defining op and reads its integer "value" attribute
(comp_to_vulkan.cc lines 309-315), so a non-constant operand leads to a null
dereference / null-attribute constant — modelled as the `crash` outcome —
and never to `mlir::failure()`.  Evaluating the embedded lowering at such an
op yields `crash`, not `matchFailure`. -/
theorem C2_nonconstant_grid_crash_not_failure :
    vkMatchAndRewrite wC2mm 1 ⟨0, []⟩ wC2op = VkMatchResult.crash
    ∧ VkMatchResult.crash ≠ VkMatchResult.matchFailure := by
  constructor
  · decide
  · decide

/-- Concrete modules map used by the C5 counterexample. -/
def wC5dupMm : List (String × List String) := [(("bin"), [("k")])]

/-- Concrete ScheduleFunc op binding the same buffer (value 7) at two
binding indices, used by the C5 counterexample. -/
def wC5dupOp : VkScheduleFuncOp :=
  ⟨("bin"), ("k"), ⟨some 1, some 1, some 1⟩,
   [⟨7, 8, true⟩, ⟨7, 8, true⟩], 1⟩

/-- C5, counterexample.  The claim says that for every kernel argument buffer
already present in the buffer-producer map exactly one memory-transfer action
is emitted, wiring (producer step, producer binding) to (current step,
current binding).  At step 1, with buffer 7 recorded as produced by
step 0 / binding 0, an op that binds buffer 7 at two binding indices makes
the code emit two transfer actions — and the second one is wired from
(1, 0), the current step itself, not from the producer step — because the
map entry is overwritten inside the per-buffer loop before the next buffer
is scanned. -/
theorem C5_counterexample :
    (match vkMatchAndRewrite wC5dupMm 2 ⟨1, [(7, 0, 0)]⟩ wC5dupOp with
     | VkMatchResult.success calls _ => calls.filter VkCall.isMemoryTransfer
     | _ => [])
      = [VkCall.createMemoryTransferAction 0 0 1 0,
         VkCall.createMemoryTransferAction 1 0 1 1] := by
  decide

/-- C5, amended: the claim restricted to ops whose kernel-argument buffer
values are pairwise distinct.  Under that proviso, the lowering's transfer
emission coincides with the two-phase specification reading: every lookup
consults the buffer map as it stood at entry (so each present buffer yields
exactly one transfer wired (producer step, producer binding) → (current
step, current binding index)), and afterwards the map entry of every buffer
the step touches holds this step's own (step index, binding index). -/
theorem C5_amended_unique_transfer (mm : List (String × List String))
    (num : Nat) (st : VkPassState) (op : VkScheduleFuncOp)
    (calls : List VkCall) (st' : VkPassState)
    (hs : vkMatchAndRewrite mm num st op = VkMatchResult.success calls st')
    (hnd : (op.buffers.map (fun b => b.value)).Nodup) :
    calls.filter VkCall.isMemoryTransfer
        = vkSpecTransfers st.scheduleFuncIndex st.bufferMap 0
            (op.buffers.map (fun b => b.value))
    ∧ ∀ j (hj : j < (op.buffers.map (fun b => b.value)).length),
        lookupBuf st'.bufferMap
            ((op.buffers.map (fun b => b.value)).get ⟨j, hj⟩)
          = some (st.scheduleFuncIndex, j) := by
  obtain ⟨gx, gy, gz, _, _, _, hcalls, hst⟩ := vkMatchAndRewrite_success_inv hs
  subst hcalls
  subst hst
  constructor
  · have h1 := transfer_filter_vkBindCalls 0 op.buffers
    have h2 := transfer_filter_vkProcessBuffers st.scheduleFuncIndex
      (op.buffers.map (fun b => b.value)) 0 st.bufferMap
    have h3 := vkProcessBuffers_fst_eq_spec st.scheduleFuncIndex hnd 0
      st.bufferMap
    rw [h3] at h2
    cases hrc : vkRunCondition num st.scheduleFuncIndex <;>
      simp [hrc, List.filter_append, h1, h3, h2, VkCall.isMemoryTransfer]
  · intro j hj
    simpa using vkProcessBuffers_snd_lookup st.scheduleFuncIndex hnd 0
      st.bufferMap j hj

/-- Concrete modules map used by the C5 witness. -/
def wC5mm : List (String × List String) := [(("bin"), [("k")])]

/-- Concrete ScheduleFunc op with two distinct buffers (values 5 and 6) used
by the C5 witness; buffer 5 was produced by step 0 at binding 0. -/
def wC5op : VkScheduleFuncOp :=
  ⟨("bin"), ("k"), ⟨some 4, some 2, some 1⟩,
   [⟨5, 8, true⟩, ⟨6, 16, true⟩], 1⟩

/-- Pass state produced by the C5 witness lowering. -/
def wC5stAfter : VkPassState := ⟨2, [(5, 1, 0), (6, 1, 1)]⟩

/-- Calls emitted by the C5 witness lowering. -/
def wC5calls : List VkCall :=
  [VkCall.bindBuffer 0 0 8 5, VkCall.bindBuffer 0 1 16 6,
   VkCall.createLaunchKernelAction ("bin") ("k") 4 2 1,
   VkCall.setLaunchKernelAction 1,
   VkCall.createMemoryTransferAction 0 0 1 0,
   VkCall.scheduleFunc, VkCall.run]

/-- C5, witness for the amended theorem at a concrete two-buffer op. -/
theorem C5_amended_witness :
    wC5calls.filter VkCall.isMemoryTransfer
        = vkSpecTransfers 1 [(5, 0, 0)] 0
            (wC5op.buffers.map (fun b => b.value))
    ∧ ∀ j (hj : j < (wC5op.buffers.map (fun b => b.value)).length),
        lookupBuf wC5stAfter.bufferMap
            ((wC5op.buffers.map (fun b => b.value)).get ⟨j, hj⟩)
          = some (1, j) :=
  C5_amended_unique_transfer wC5mm 2 ⟨1, [(5, 0, 0)]⟩ wC5op wC5calls
    wC5stAfter (by decide) (by decide)

/-- C6.  With the kernel-launch-op count taken from the pre-pass walk over
the module, a successful ScheduleFunc lowering emits the `vkRun` call if and
only if the step index of the op currently being lowered equals that count
minus one.  The side conditions keep the `uint32_t` arithmetic of
`scheduleFuncIndex == scheduleFuncNum - 1` in the range where it agrees with
the mathematical reading. -/
theorem C6_run_emitted_iff_last (mo : List ModuleOpKind)
    (mm : List (String × List String)) (st : VkPassState)
    (op : VkScheduleFuncOp) (calls : List VkCall) (st' : VkPassState)
    (hs : vkMatchAndRewrite mm (countScheduleFuncOps mo) st op
        = VkMatchResult.success calls st')
    (hwalk : ModuleOpKind.scheduleFunc ∈ mo)
    (hm : countScheduleFuncOps mo ≤ kUInt32Mod)
    (hidx : st.scheduleFuncIndex < kUInt32Mod) :
    VkCall.run ∈ calls
      ↔ st.scheduleFuncIndex = countScheduleFuncOps mo - 1 := by
  obtain ⟨gx, gy, gz, _, _, _, hcalls, _⟩ := vkMatchAndRewrite_success_inv hs
  subst hcalls
  have h1 := run_not_mem_vkBindCalls 0 op.buffers
  have h2 := run_not_mem_vkProcessBuffers st.scheduleFuncIndex
    (op.buffers.map (fun b => b.value)) 0 st.bufferMap
  have hpos := countScheduleFuncOps_pos hwalk
  cases hrc : vkRunCondition (countScheduleFuncOps mo) st.scheduleFuncIndex with
  | true =>
    have heq := (vkRunCondition_iff hpos hm hidx).mp hrc
    simp [hrc, List.mem_append, h1, h2, heq]
  | false =>
    have hne : ¬st.scheduleFuncIndex = countScheduleFuncOps mo - 1 := by
      intro he
      rw [(vkRunCondition_iff hpos hm hidx).mpr he] at hrc
      cases hrc
    simp [hrc, List.mem_append, h1, h2, hne]

/-- Concrete module op list (one other op, two kernel-launch ops) used by
the C6 witness. -/
def wC6mod : List ModuleOpKind :=
  [ModuleOpKind.other, ModuleOpKind.scheduleFunc, ModuleOpKind.scheduleFunc]

/-- Concrete modules map used by the C6 witness. -/
def wC6mm : List (String × List String) := [(("bin"), [("k")])]

/-- Concrete ScheduleFunc op used by the C6 witness. -/
def wC6op : VkScheduleFuncOp :=
  ⟨("bin"), ("k"), ⟨some 1, some 1, some 1⟩, [], 1⟩

/-- Calls emitted by the C6 witness lowering (step index 1 of 2, so the
`vkRun` call is present). -/
def wC6calls : List VkCall :=
  [VkCall.createLaunchKernelAction ("bin") ("k") 1 1 1,
   VkCall.setLaunchKernelAction 1, VkCall.scheduleFunc, VkCall.run]

/-- C6, witness at a module with two kernel-launch ops, lowering the op whose
step index is 1 = count - 1. -/
theorem C6_run_emitted_iff_last_witness :
    VkCall.run ∈ wC6calls ↔ (1 : Nat) = countScheduleFuncOps wC6mod - 1 :=
  C6_run_emitted_iff_last wC6mod wC6mm ⟨1, []⟩ wC6op wC6calls ⟨2, []⟩
    (by decide) (by decide) (by decide) (by decide)

/-! ## Level Zero invocation runtime (level_zero_invocation.cc)

Event handles and memory-object identities are modelled as naturals drawn
from counters; the queue's command list is the list of commands appended by
`lzu::append_launch_function` and friends; driver interactions relevant to
memory lifetime are collected as traces of `LzDriverCall`s. -/

/-- `ze_group_count_t`. -/
structure ZeGroupCount where
  groupCountX : Nat
  groupCountY : Nat
  groupCountZ : Nat
deriving DecidableEq

/-- A `LevelZeroKernel`: entry name plus the accumulated dependency event
handles (`std::vector<ze_event_handle_t> dependencies`). -/
structure LevelZeroKernel where
  name : String
  dependencies : List Nat
deriving DecidableEq

/-- Commands appended to the queue's command list. -/
inductive LzCommand where
  | launch (kernel : String) (gws : ZeGroupCount) (waitEvents : List Nat)
      (resultEvent : Nat)
deriving DecidableEq

/-- `LevelZeroKernel::addDependency` (level_zero_invocation.cc lines 37-39):
pushes the event's handle onto the dependency vector. -/
def LevelZeroKernel.addDependency (k : LevelZeroKernel) (e : Nat) :
    LevelZeroKernel :=
  { k with dependencies := k.dependencies ++ [e] }

/-- `LevelZeroKernel::enqueue` (level_zero_invocation.cc lines 46-61):
`lzu::append_launch_function(list, kernel, gws, resultE, dependencies.size(),
dependencies.data())` appends a launch command carrying the current
dependency vector, then `dependencies.clear()` empties it.  The `lws`
argument is accepted but unused by the launch (the group count division is
commented out in the source). -/
def LevelZeroKernel.enqueue (k : LevelZeroKernel) (list : List LzCommand)
    (gws _lws : ZeGroupCount) (resultEvent : Nat) :
    List LzCommand × LevelZeroKernel :=
  (list ++ [LzCommand.launch k.name gws k.dependencies resultEvent],
   { k with dependencies := [] })

/-- Driver interactions relevant to memory and event lifetime. -/
inductive LzDriverCall where
  | allocSharedMemory (bytes : Nat)
  | synchronize
  | freeMemoryBuffer (memory : Nat)
  | destroyEvent (handle : Nat)
deriving DecidableEq

/-- The `LevelZeroInvocation` state: the queue's command list, the event-pool
counter handing out fresh event handles, the invocation-owned event list
(handle and diagnostic name, `wrapEvent`), the retired memory list
(`std::vector<LevelZeroMemory*> memories`), and a counter handing out fresh
memory-object identities for `new LevelZeroMemory`. -/
structure LevelZeroInvocation where
  commandList : List LzCommand
  nextEventHandle : Nat
  events : List (Nat × String)
  memories : List Nat
  nextMemoryId : Nat
deriving DecidableEq

/-- `LevelZeroInvocation::enqueueKernel` (level_zero_invocation.cc lines
154-165): sets the kernel's group size from `lws` (a driver call on the
kernel object, not a command-list entry), creates a fresh event from the
pool, calls `kernel->enqueue(list, gws, lws, event)`, and wraps the event
into the invocation's event list under the kernel's name.  Returns the new
event handle, the updated invocation, and the updated kernel. -/
def LevelZeroInvocation.enqueueKernel (inv : LevelZeroInvocation)
    (k : LevelZeroKernel) (gws lws : ZeGroupCount) :
    Nat × LevelZeroInvocation × LevelZeroKernel :=
  let event := inv.nextEventHandle
  let r := k.enqueue inv.commandList gws lws event
  (event,
   { inv with
      commandList := r.1,
      nextEventHandle := event + 1,
      events := inv.events ++ [(event, k.name)] },
   r.2)

/-- `LevelZeroInvocation::allocateMemory` (level_zero_invocation.cc lines
103-109): requests a shared allocation from the driver and returns a fresh
`LevelZeroMemory` object; the object is not recorded in any invocation
list. -/
def LevelZeroInvocation.allocateMemory (inv : LevelZeroInvocation)
    (bytes : Nat) : Nat × LevelZeroInvocation × List LzDriverCall :=
  (inv.nextMemoryId,
   { inv with nextMemoryId := inv.nextMemoryId + 1 },
   [LzDriverCall.allocSharedMemory bytes])

/-- `LevelZeroInvocation::deallocateMemory` (level_zero_invocation.cc lines
111-115): only `memories.push_back(memory)` — the `delete memory` is
commented out, so no driver call is made and no buffer is released. -/
def LevelZeroInvocation.deallocateMemory (inv : LevelZeroInvocation)
    (memory : Nat) : LevelZeroInvocation × List LzDriverCall :=
  ({ inv with memories := inv.memories ++ [memory] }, [])

/-- Driver calls made by `LevelZeroInvocation::~LevelZeroInvocation`
(level_zero_invocation.cc lines 87-101): `finish()` synchronizes the queue,
then `delete memories[i]` releases each retired memory object's device
buffer (the `LevelZeroMemory` destructor owns the buffer), then each pooled
event is destroyed. -/
def LevelZeroInvocation.destructorCalls (inv : LevelZeroInvocation) :
    List LzDriverCall :=
  LzDriverCall.synchronize
    :: (inv.memories.map LzDriverCall.freeMemoryBuffer
        ++ inv.events.map (fun e => LzDriverCall.destroyEvent e.1))

/-- Selector extracting the released buffer from a driver call, if any. -/
def releasedBuffer : LzDriverCall → Option Nat
  | LzDriverCall.freeMemoryBuffer m => some m
  | _ => none

/-- Buffers released by a trace of driver calls. -/
def freedBuffers (calls : List LzDriverCall) : List Nat :=
  calls.filterMap releasedBuffer

lemma addDependency_foldl_dependencies : ∀ (ds : List Nat)
    (k0 : LevelZeroKernel),
    (ds.foldl LevelZeroKernel.addDependency k0).dependencies
      = k0.dependencies ++ ds := by
  intro ds
  induction ds with
  | nil => intro k0; simp
  | cons d rest ih =>
    intro k0
    simp [ih, LevelZeroKernel.addDependency]

lemma addDependency_foldl_name : ∀ (ds : List Nat) (k0 : LevelZeroKernel),
    (ds.foldl LevelZeroKernel.addDependency k0).name = k0.name := by
  intro ds
  induction ds with
  | nil => intro k0; rfl
  | cons d rest ih => intro k0; simp [ih, LevelZeroKernel.addDependency]

lemma filterMap_releasedBuffer_freeMap : ∀ l : List Nat,
    List.filterMap releasedBuffer (l.map LzDriverCall.freeMemoryBuffer) = l := by
  intro l
  induction l with
  | nil => rfl
  | cons a t ih => simp [List.filterMap_cons, releasedBuffer, ih]

lemma filterMap_releasedBuffer_destroyMap : ∀ l : List (Nat × String),
    List.filterMap releasedBuffer
      (l.map (fun e => LzDriverCall.destroyEvent e.1)) = [] := by
  intro l
  induction l with
  | nil => rfl
  | cons a t ih => simp [List.filterMap_cons, releasedBuffer, ih]

lemma freedBuffers_destructorCalls (inv : LevelZeroInvocation) :
    freedBuffers inv.destructorCalls = inv.memories := by
  unfold LevelZeroInvocation.destructorCalls freedBuffers
  rw [List.filterMap_cons]
  simp only [List.filterMap_append, filterMap_releasedBuffer_freeMap,
    filterMap_releasedBuffer_destroyMap, List.append_nil]
  rfl

/-- C4.  Starting from a kernel whose dependency vector is empty (a fresh
kernel, or the state immediately after a previous enqueue), adding the
events `ds` with `addDependency` and then calling `enqueueKernel` appends
exactly one launch command carrying exactly `ds` as its wait events, and the
kernel's dependency vector is empty immediately after the call — the
dependencies are consumed one-shot. -/
theorem C4_enqueue_consumes_dependencies (inv : LevelZeroInvocation)
    (k0 : LevelZeroKernel) (ds : List Nat) (gws lws : ZeGroupCount)
    (h0 : k0.dependencies = []) :
    (inv.enqueueKernel (ds.foldl LevelZeroKernel.addDependency k0)
        gws lws).2.1.commandList
      = inv.commandList
        ++ [LzCommand.launch k0.name gws ds inv.nextEventHandle]
    ∧ (inv.enqueueKernel (ds.foldl LevelZeroKernel.addDependency k0)
        gws lws).2.2.dependencies = [] := by
  constructor
  · simp [LevelZeroInvocation.enqueueKernel, LevelZeroKernel.enqueue,
      addDependency_foldl_dependencies, addDependency_foldl_name, h0]
  · simp [LevelZeroInvocation.enqueueKernel, LevelZeroKernel.enqueue]

/-- Concrete kernel used by the C4 witness. -/
def wC4kernel : LevelZeroKernel := ⟨("matmul"), []⟩

/-- Concrete invocation state used by the C4 witness. -/
def wC4inv : LevelZeroInvocation := ⟨[], 3, [], [], 0⟩

/-- C4, witness: enqueue after adding events 1 and 2 to a fresh kernel. -/
theorem C4_enqueue_consumes_dependencies_witness :
    (wC4inv.enqueueKernel
        ([1, 2].foldl LevelZeroKernel.addDependency wC4kernel)
        ⟨4, 2, 1⟩ ⟨2, 2, 1⟩).2.1.commandList
      = wC4inv.commandList
        ++ [LzCommand.launch wC4kernel.name ⟨4, 2, 1⟩ [1, 2]
              wC4inv.nextEventHandle]
    ∧ (wC4inv.enqueueKernel
        ([1, 2].foldl LevelZeroKernel.addDependency wC4kernel)
        ⟨4, 2, 1⟩ ⟨2, 2, 1⟩).2.2.dependencies = [] :=
  C4_enqueue_consumes_dependencies wC4inv wC4kernel [1, 2] ⟨4, 2, 1⟩
    ⟨2, 2, 1⟩ (by decide)

/-- C7.  `deallocateMemory` makes no driver call (in particular it releases
nothing) and changes nothing in the invocation except appending the object
to the retired list; the device buffers are released only by the destructor,
whose very first driver call synchronizes the queue and which then frees
exactly the retired objects. -/
theorem C7_dealloc_defers_release (inv : LevelZeroInvocation) (memory : Nat) :
    (inv.deallocateMemory memory).2 = []
    ∧ (inv.deallocateMemory memory).1.memories = inv.memories ++ [memory]
    ∧ (inv.deallocateMemory memory).1.commandList = inv.commandList
    ∧ (inv.deallocateMemory memory).1.events = inv.events
    ∧ (inv.deallocateMemory memory).1.nextEventHandle = inv.nextEventHandle
    ∧ (inv.deallocateMemory memory).1.nextMemoryId = inv.nextMemoryId
    ∧ freedBuffers ((inv.deallocateMemory memory).1.destructorCalls)
        = inv.memories ++ [memory]
    ∧ ((inv.deallocateMemory memory).1.destructorCalls).head?
        = some LzDriverCall.synchronize := by
  refine ⟨rfl, rfl, rfl, rfl, rfl, rfl, ?_, rfl⟩
  rw [freedBuffers_destructorCalls]
  rfl

/-- Host-side memory operations of one invocation, for the C9 lifetime
statement. -/
inductive LzMemOp where
  | alloc (bytes : Nat)
  | dealloc (memory : Nat)
deriving DecidableEq

/-- Run a sequence of `allocateMemory`/`deallocateMemory` calls. -/
def runMemOps (inv : LevelZeroInvocation) : List LzMemOp → LevelZeroInvocation
  | [] => inv
  | LzMemOp.alloc b :: rest => runMemOps (inv.allocateMemory b).2.1 rest
  | LzMemOp.dealloc m :: rest => runMemOps (inv.deallocateMemory m).1 rest

/-- Memory objects passed to `deallocateMemory` in a program, in order. -/
def deallocatedIn (prog : List LzMemOp) : List Nat :=
  prog.filterMap (fun op =>
    match op with
    | LzMemOp.dealloc m => some m
    | _ => none)

lemma runMemOps_memories : ∀ (prog : List LzMemOp)
    (inv : LevelZeroInvocation),
    (runMemOps inv prog).memories = inv.memories ++ deallocatedIn prog := by
  intro prog
  induction prog with
  | nil => intro inv; simp [runMemOps, deallocatedIn]
  | cons op rest ih =>
    intro inv
    cases op with
    | alloc b =>
      simp [runMemOps, deallocatedIn, List.filterMap_cons, ih,
        LevelZeroInvocation.allocateMemory]
    | dealloc m =>
      simp [runMemOps, deallocatedIn, List.filterMap_cons, ih,
        LevelZeroInvocation.deallocateMemory, List.append_assoc]

/-- C9.  The destructor frees exactly the objects in the retired list: after
any sequence of `allocateMemory`/`deallocateMemory` calls, the buffers
released at teardown are the initially retired ones followed by exactly the
objects passed to `deallocateMemory`, in order — so a memory object returned
by `allocateMemory` but never passed to `deallocateMemory` is not released
at invocation teardown. -/
theorem C9_teardown_frees_only_retired (inv0 : LevelZeroInvocation)
    (prog : List LzMemOp) (memory : Nat)
    (h0 : memory ∉ inv0.memories) (hp : memory ∉ deallocatedIn prog) :
    freedBuffers ((runMemOps inv0 prog).destructorCalls)
        = inv0.memories ++ deallocatedIn prog
    ∧ memory ∉ freedBuffers ((runMemOps inv0 prog).destructorCalls) := by
  have h := freedBuffers_destructorCalls (runMemOps inv0 prog)
  rw [runMemOps_memories prog inv0] at h
  refine ⟨h, ?_⟩
  rw [h]
  intro hmem
  rcases List.mem_append.mp hmem with hmem | hmem
  · exact h0 hmem
  · exact hp hmem

/-- Concrete op sequence used by the C9 witness: allocate object 0, retire
it, allocate object 1 and never deallocate it. -/
def wC9prog : List LzMemOp :=
  [LzMemOp.alloc 1024, LzMemOp.dealloc 0, LzMemOp.alloc 16]

/-- Fresh invocation state used by the C9 witness. -/
def wC9inv : LevelZeroInvocation := ⟨[], 0, [], [], 0⟩

/-- C9, witness: object 1 is allocated by the program and never deallocated;
teardown frees only object 0. -/
theorem C9_teardown_frees_only_retired_witness :
    freedBuffers ((runMemOps wC9inv wC9prog).destructorCalls)
        = wC9inv.memories ++ deallocatedIn wC9prog
    ∧ (1 : Nat) ∉ freedBuffers ((runMemOps wC9inv wC9prog).destructorCalls) :=
  C9_teardown_frees_only_retired wC9inv wC9prog 1 (by decide) (by decide)

/-! ## The "reducemean" front-end registration (reduce_mean.cpp lines 18-26) -/

/-- Values of the front-end tensor eDSL: an input tensor, or the expression
built by `op::mean(I, make_tuple(axes), keepDims)`. -/
inductive PlaidExpr where
  | tensor (id : Nat)
  | mean (input : PlaidExpr) (axes : List Nat) (keepDims : Bool)
deriving DecidableEq

/-- The parts of the registration `Context` the function reads: the operand
list and the layer's keep-dims flag (`ngraph ReduceMean::get_keep_dims`). -/
structure OVContext where
  operands : List PlaidExpr
  layerKeepDims : Bool
deriving DecidableEq

/-- Embedding of the "reducemean" registration (reduce_mean.cpp lines
18-26): `IE_ASSERT(ctx.operands.size() == 2)` is modelled as `none` on
failure; otherwise the result is `op::mean` of the first operand with the
hard-coded axes vector {1, 2} and the layer's keep-dims flag.  The second
(axes) operand is never read — the line that would read it is commented out
in the source. -/
def reducemeanRegistration (ctx : OVContext) : Option PlaidExpr :=
  if ctx.operands.length = 2 then
    some (PlaidExpr.mean (ctx.operands.getD 0 (PlaidExpr.tensor 0)) [1, 2]
      ctx.layerKeepDims)
  else none

/-- C10.  The registration asserts exactly two operands (any other operand
count trips the assertion, modelled as `none`), and on two operands it
always reduces the first operand over the fixed axes {1, 2} with the
layer's keep-dims flag — the value of the second (axes) operand is
irrelevant. -/
theorem C10_reducemean_fixed_axes (I a a' : PlaidExpr) (kd : Bool)
    (ctx : OVContext) (hl : ctx.operands.length ≠ 2) :
    reducemeanRegistration ⟨[I, a], kd⟩
        = some (PlaidExpr.mean I [1, 2] kd)
    ∧ reducemeanRegistration ⟨[I, a'], kd⟩
        = reducemeanRegistration ⟨[I, a], kd⟩
    ∧ reducemeanRegistration ctx = none := by
  refine ⟨rfl, rfl, ?_⟩
  unfold reducemeanRegistration
  rw [if_neg hl]

/-- C10, witness: two different second operands give the same result, and a
one-operand context trips the assertion. -/
theorem C10_reducemean_fixed_axes_witness :
    reducemeanRegistration ⟨[PlaidExpr.tensor 1, PlaidExpr.tensor 2], true⟩
        = some (PlaidExpr.mean (PlaidExpr.tensor 1) [1, 2] true)
    ∧ reducemeanRegistration ⟨[PlaidExpr.tensor 1, PlaidExpr.tensor 9], true⟩
        = reducemeanRegistration
            ⟨[PlaidExpr.tensor 1, PlaidExpr.tensor 2], true⟩
    ∧ reducemeanRegistration ⟨[PlaidExpr.tensor 1], true⟩ = none :=
  C10_reducemean_fixed_axes (PlaidExpr.tensor 1) (PlaidExpr.tensor 2)
    (PlaidExpr.tensor 9) true ⟨[PlaidExpr.tensor 1], true⟩ (by decide)
